import Mathlib

set_option maxRecDepth 100000

/-!
Shallow embedding of the core of the scheme interpreter: `types.rs`,
`env.rs`, `heap.rs`, `interp.rs`, together with the value shapes the
reader (`parser.rs`) produces.

Modelling decisions, stated once:
* Rust `i64` integers are modeled as unbounded integers; no theorem in
  this file depends on overflow behaviour.
* Rust `f64` floats are modeled as rationals.  Every float value reaching
  a theorem below is a small integer, on which IEEE binary64 arithmetic
  is exact and agrees with the rational operations.
* Host-level abnormal ends (an `i64` division/remainder by zero panic, an
  out-of-range index panic, `process::exit`, or a diverging walk of a
  cyclic chain) are modeled by the distinguished outcome `PRes.abort`,
  which is distinct from every `SchemeError`.
* Interior mutability through `Rc<RefCell<...>>` is modeled by threading
  an explicit state `Interp` holding the heap object arena, the symbol
  interning table and an arena of environment frames; `Rc` handles become
  indices into these arenas.  `RefCell` borrow dynamics are not modeled;
  no program evaluated in this file nests a heap mutation inside a held
  heap borrow (no lambda form occurs in argument position of a Pair
  combination).
* Rust `HashMap`s are modeled as association lists with keyed lookup and
  insert-or-overwrite; the interpreter never iterates over these maps, so
  iteration order is irrelevant.
-/

abbrev GcId := Nat

abbrev EnvId := Nat

/-- Mirrors `Number` of types.rs: `Int(i64)` with i64 as ℤ, `Float(f64)`
with f64 as ℚ. -/
inductive Number
  | Int (i : ℤ)
  | Float (q : ℚ)
deriving DecidableEq, Repr

/-- Numeric value of a `Number` under the Int-to-Float promotion used by
the mixed-mode arms of the arithmetic `impl`s of types.rs. -/
def Number.toRat : Number → ℚ
  | .Int i => (i : ℚ)
  | .Float q => q

/-- Mirrors `impl Add for Number`. -/
def Number.add : Number → Number → Number
  | .Int a, .Int b => .Int (a + b)
  | .Int a, .Float b => .Float ((a : ℚ) + b)
  | .Float a, .Int b => .Float (a + (b : ℚ))
  | .Float a, .Float b => .Float (a + b)

/-- Mirrors `impl Mul for Number`. -/
def Number.mul : Number → Number → Number
  | .Int a, .Int b => .Int (a * b)
  | .Int a, .Float b => .Float ((a : ℚ) * b)
  | .Float a, .Int b => .Float (a * (b : ℚ))
  | .Float a, .Float b => .Float (a * b)

/-- Mirrors `impl Neg for Number`. -/
def Number.neg : Number → Number
  | .Int i => .Int (-i)
  | .Float q => .Float (-q)

/-- Mirrors `impl Sub for Number`. -/
def Number.sub : Number → Number → Number
  | .Int a, .Int b => .Int (a - b)
  | .Int a, .Float b => .Float ((a : ℚ) - b)
  | .Float a, .Int b => .Float (a - (b : ℚ))
  | .Float a, .Float b => .Float (a - b)

/-- Mirrors `impl Div for Number`: strict promotion, Int divided by Int
also yields Float.  (On the rational model a zero divisor yields 0 where
f64 yields an infinity or NaN; no theorem divides by zero.) -/
def Number.div : Number → Number → Number
  | .Int a, .Int b => .Float ((a : ℚ) / (b : ℚ))
  | .Int a, .Float b => .Float ((a : ℚ) / b)
  | .Float a, .Int b => .Float (a / (b : ℚ))
  | .Float a, .Float b => .Float (a / b)

/-- Truncation toward zero, the rounding Rust float remainder uses. -/
def ratTrunc (q : ℚ) : ℤ := if 0 ≤ q then ⌊q⌋ else ⌈q⌉

/-- Truncated remainder on the rational model of f64 (the f64 NaN outcome
for a zero divisor has no rational counterpart and is not reached by any
theorem below). -/
def ratRem (a b : ℚ) : ℚ := a - b * (ratTrunc (a / b) : ℚ)

/-- Mirrors `impl Rem for Number`.  The Int/Int arm is Rust `i64 %`,
truncated remainder; `i64 % 0` panics in the host, modeled as `none`. -/
def Number.remP : Number → Number → Option Number
  | .Int a, .Int b => if b = 0 then none else some (.Int (Int.tmod a b))
  | .Int a, .Float b => some (.Float (ratRem (a : ℚ) b))
  | .Float a, .Int b => some (.Float (ratRem a (b : ℚ)))
  | .Float a, .Float b => some (.Float (ratRem a b))

/-- Rendering of a `Number` for error messages (`impl Display for Number`);
never inspected by a theorem in this file. -/
def Number.display : Number → String
  | .Int i => toString i
  | .Float q => toString q

/-- Mirrors `Value` of types.rs: an immediate tagged datum. -/
inductive Value
  | Number (n : Number)
  | Boolean (b : Bool)
  | Object (id : GcId)
  | Nil
deriving DecidableEq, Repr

/-- Mirrors `SchemeError` of types.rs. -/
inductive SchemeError
  | EvalError (msg : String)
  | TypeError (msg : String)
  | UnboundVariable (msg : String)
  | SyntaxError (msg : String)
  | ImplementationError (msg : String)
  | ArgCountError (msg : String)
  | OverflowError (msg : String)
deriving DecidableEq, Repr

/-- Names for the built-in primitive functions installed by `Interp::init`
of interp.rs; the Rust `PrimitiveFn` function pointers stored in the heap
are modeled by this enum together with the dispatcher `applyPrim`. -/
inductive Prim
  | numberP
  | integerP
  | floatP
  | add
  | sub
  | mul
  | div
  | rem
  | numEq
  | numLt
  | numGt
  | numLe
  | numGe
  | maxN
  | minN
  | list
  | listP
  | nullP
  | car
  | cdr
  | quit
deriving DecidableEq, Repr

/-- Alias used inside the `HeapObject` declaration, where the constructor
names `List` and `String` shadow the library types. -/
abbrev ValueList := List Value

/-- Alias used inside the `HeapObject` declaration (see `ValueList`). -/
abbrev Str := String

/-- Alias used inside the `HeapObject` declaration (see `ValueList`). -/
abbrev GcIdList := List GcId

/-- Mirrors `HeapObject` of heap.rs.  A `Closure` holds its parameter ids,
its unevaluated body forms, and the index of its captured environment
frame (the Rust `Rc<RefCell<Env>>` handle). -/
inductive HeapObject
  | FreeSlot (id : GcId)
  | Pair (car cdr : Value)
  | List (elems : ValueList)
  | Symbol (name : Str)
  | String (s : Str)
  | Primitive (p : Prim)
  | Closure (params : GcIdList) (body : ValueList) (env : EnvId)
deriving DecidableEq, Repr

/-- Mirrors `HeapObject::type_name`. -/
def HeapObject.typeName : HeapObject → Str
  | .FreeSlot _ => "FreeSlot"
  | .Pair _ _ => "Pair"
  | .List _ => "List"
  | .Symbol _ => "Symbol"
  | .String _ => "String"
  | .Primitive _ => "Primitive"
  | .Closure _ _ _ => "Closure"

/-- Mirrors `Env` of env.rs: one frame of the environment chain.  The
`Rc<RefCell<Env>>` parent handle is an index into the frame arena. -/
structure Frame where
  bindings : List (GcId × Value)
  parent : Option EnvId
deriving DecidableEq, Repr

/-- The interpreter state: `Interp::heap` (the object arena and the symbol
interning map of `Heap`) together with the arena of environment frames
that models every `Rc<RefCell<Env>>` alive in the Rust program.  The
`Interp::env` field, set in `Interp::new` and never reassigned, is the
global frame; it is always frame `globalEnvId`. -/
structure Interp where
  objects : List HeapObject
  symbols : List (String × GcId)
  envs : List Frame
deriving DecidableEq, Repr

/-- Index of the global environment frame (`Interp::env`). -/
def globalEnvId : EnvId := 0

/-- Keyed lookup in an association list; models `HashMap::get`. -/
def alLookup {κ α : Type} [DecidableEq κ] (key : κ) : List (κ × α) → Option α
  | [] => none
  | (k, v) :: rest => if k = key then some v else alLookup key rest

/-- Keyed insert-or-overwrite; models `HashMap::insert`. -/
def alInsert {κ α : Type} [DecidableEq κ] (key : κ) (val : α) : List (κ × α) → List (κ × α)
  | [] => [(key, val)]
  | (k, v) :: rest => if k = key then (key, val) :: rest else (k, v) :: alInsert key val rest

/-- Outcome of a fallible interpreter step: a value, a Rust
`Err(SchemeError)`, or a host-level abnormal end (panic, process exit, or
a diverging walk), which no Rust `Result` value represents. -/
inductive PRes (α : Type)
  | ok (a : α)
  | err (e : SchemeError)
  | abort
deriving DecidableEq, Repr

/-- Mirrors `Heap::get` without the out-of-range panic (callers map a
`none` to `PRes.abort`). -/
def heapGet (st : Interp) (id : GcId) : Option HeapObject := st.objects[id]?

/-- Mirrors `Heap::intern_symbol_to_gcid`: return the existing id for the
name, or push a fresh Symbol object and record its id. -/
def internSymbolToGcid (st : Interp) (name : String) : GcId × Interp :=
  match alLookup name st.symbols with
  | some id => (id, st)
  | none =>
      let id := st.objects.length
      (id, { st with objects := st.objects ++ [HeapObject.Symbol name],
                     symbols := alInsert name id st.symbols })

/-- Mirrors `Heap::intern_symbol`. -/
def internSymbol (st : Interp) (name : String) : Value × Interp :=
  let (id, st1) := internSymbolToGcid st name
  (Value.Object id, st1)

/-- Mirrors `Heap::alloc_pair`. -/
def allocPair (st : Interp) (car cdr : Value) : Value × Interp :=
  (Value.Object st.objects.length, { st with objects := st.objects ++ [HeapObject.Pair car cdr] })

/-- Mirrors `Heap::alloc_list`: right fold of `alloc_pair` over the items,
terminated by Nil, so an empty input yields `Value.Nil` with no
allocation.  The recursion allocates right-to-left exactly as `rfold`
does, so the resulting ids coincide with the Rust ones. -/
def allocList (st : Interp) : List Value → Value × Interp
  | [] => (Value.Nil, st)
  | v :: rest =>
      let (acc, st1) := allocList st rest
      allocPair st1 v acc

/-- Mirrors `Heap::alloc_string`. -/
def allocString (st : Interp) (s : String) : Value × Interp :=
  (Value.Object st.objects.length, { st with objects := st.objects ++ [HeapObject.String s] })

/-- Mirrors `Heap::alloc_primitive`. -/
def allocPrimitive (st : Interp) (p : Prim) : Value × Interp :=
  (Value.Object st.objects.length, { st with objects := st.objects ++ [HeapObject.Primitive p] })

/-- Mirrors `Heap::alloc_closure`. -/
def allocClosure (st : Interp) (params : List GcId) (body : List Value) (env : EnvId) :
    Value × Interp :=
  (Value.Object st.objects.length,
   { st with objects := st.objects ++ [HeapObject.Closure params body env] })

/-- Mirrors `Env::define` on frame `eid` of the frame arena (the `none`
arm is unreachable: every `Rc` handle indexes a live frame). -/
def envDefine (st : Interp) (eid : EnvId) (key : GcId) (v : Value) : Interp :=
  match st.envs[eid]? with
  | some f => { st with envs := st.envs.set eid { f with bindings := alInsert key v f.bindings } }
  | none => st

/-- Mirrors `Env::extend`: a fresh empty frame whose parent is `parent`. -/
def envExtend (st : Interp) (parent : EnvId) : EnvId × Interp :=
  (st.envs.length, { st with envs := st.envs ++ [{ bindings := [], parent := some parent }] })

/-- Mirrors `Env::lookup`: walk the parent chain for the nearest binding.
The fuel bounds the walk (chains the interpreter builds are acyclic); the
outer `none` means the walk did not finish within the fuel. -/
def envLookupF : Nat → List Frame → EnvId → GcId → Option (Option Value)
  | 0, _, _, _ => none
  | fuel + 1, envs, eid, key =>
      match envs[eid]? with
      | none => none
      | some f =>
          match alLookup key f.bindings with
          | some v => some (some v)
          | none =>
              match f.parent with
              | some p => envLookupF fuel envs p key
              | none => some none

/-- Mirrors `Env::set_bang` of env.rs: update the binding in the nearest
frame of the parent chain that already binds `key`, else report
UnboundVariable.  The outer `none` means the walk did not finish within
the fuel. -/
def setBangF : Nat → List Frame → EnvId → GcId → Value → Option (Except SchemeError Unit × List Frame)
  | 0, _, _, _, _ => none
  | fuel + 1, envs, eid, key, v =>
      match envs[eid]? with
      | none => none
      | some f =>
          if (alLookup key f.bindings).isSome then
            some (Except.ok (), envs.set eid { f with bindings := alInsert key v f.bindings })
          else
            match f.parent with
            | some p => setBangF fuel envs p key v
            | none =>
                some (Except.error (SchemeError.UnboundVariable
                        ("Unbound variable with GcId " ++ toString key)), envs)

/-- The list of frame indices reached from `eid` by following parent
links, within `fuel` steps; observation vocabulary for stating chain
properties of `Env::set_bang`. -/
def chainF : Nat → List Frame → EnvId → List EnvId
  | 0, _, _ => []
  | fuel + 1, envs, eid =>
      match envs[eid]? with
      | none => []
      | some f =>
          eid :: (match f.parent with
                  | some p => chainF fuel envs p
                  | none => [])

/-- Bindings of frame `eid`, empty for an out-of-range index; observation
vocabulary. -/
def bindingsAt (envs : List Frame) (eid : EnvId) : List (GcId × Value) :=
  match envs[eid]? with
  | some f => f.bindings
  | none => []

/-- Mirrors the `all_of_type!(args, Value::Number, "Number")` macro
expansion used by the arithmetic primitives: collect the payloads
left-to-right, stopping at the first non-Number with the macro's
TypeError. -/
def allNumbers : List Value → Except SchemeError (List Number)
  | [] => Except.ok []
  | Value.Number n :: rest =>
      match allNumbers rest with
      | Except.ok ns => Except.ok (n :: ns)
      | Except.error e => Except.error e
  | _ :: _ => Except.error (SchemeError.TypeError "Number")

/-- Mirrors `primitive_add`. -/
def primitive_add (st : Interp) (args : List Value) : PRes Value × Interp :=
  match allNumbers args with
  | Except.error e => (PRes.err e, st)
  | Except.ok nums => (PRes.ok (Value.Number (nums.foldl Number.add (Number.Int 0))), st)

/-- Mirrors `primitive_sub`: one argument negates, two or more fold left. -/
def primitive_sub (st : Interp) (args : List Value) : PRes Value × Interp :=
  match allNumbers args with
  | Except.error e => (PRes.err e, st)
  | Except.ok [] => (PRes.err (SchemeError.ArgCountError "- expects at least one arg."), st)
  | Except.ok [x] => (PRes.ok (Value.Number (Number.neg x)), st)
  | Except.ok (x :: rest) => (PRes.ok (Value.Number (rest.foldl Number.sub x)), st)

/-- Mirrors `primitive_div`: one argument computes `Float(1.0) / x`, two or
more fold left with `Number`'s division.  (The empty-argument message says
"-": it is copied verbatim from the source.) -/
def primitive_div (st : Interp) (args : List Value) : PRes Value × Interp :=
  match allNumbers args with
  | Except.error e => (PRes.err e, st)
  | Except.ok [] => (PRes.err (SchemeError.ArgCountError "- expects at least one arg."), st)
  | Except.ok [x] => (PRes.ok (Value.Number (Number.div (Number.Float 1) x)), st)
  | Except.ok (x :: rest) => (PRes.ok (Value.Number (rest.foldl Number.div x)), st)

/-- Mirrors `primitive_mul`. -/
def primitive_mul (st : Interp) (args : List Value) : PRes Value × Interp :=
  match allNumbers args with
  | Except.error e => (PRes.err e, st)
  | Except.ok nums => (PRes.ok (Value.Number (nums.foldl Number.mul (Number.Int 1))), st)

/-- Mirrors `primitive_rem` together with its `extract_args!(args, 2, a:
Number, b: Number)` expansion: a wrong argument count gives the macro's
ArgCountError, a non-Number argument its TypeError, and the remainder
itself is `Number`'s `%`, whose Int/Int zero-divisor case is a host panic
(`PRes.abort`) rather than any `SchemeError`. -/
def primitive_rem (st : Interp) (args : List Value) : PRes Value × Interp :=
  match args with
  | [Value.Number a, Value.Number b] =>
      (match Number.remP a b with
       | some n => (PRes.ok (Value.Number n), st)
       | none => (PRes.abort, st))
  | [_, _] => (PRes.err (SchemeError.TypeError "Invalid type Number."), st)
  | _ =>
      (PRes.err (SchemeError.ArgCountError
        ("Invalid arg-count " ++ toString args.length ++ " expected 2.")), st)

/-- Mirrors `primitive_quit`: a representable exit code terminates the
process (modeled as `PRes.abort`); an over-range number reports
OverflowError. -/
def primitive_quit (st : Interp) (args : List Value) : PRes Value × Interp :=
  match args with
  | [Value.Number n] =>
      (match n with
       | Number.Int i =>
           if -(2 ^ 31) ≤ i ∧ i < 2 ^ 31 then (PRes.abort, st)
           else
             (PRes.err (SchemeError.OverflowError
               ("Overflow while converting " ++ n.display ++ " to i32")), st)
       | Number.Float q =>
           if (2147483647 : ℚ) < q ∨ q < (-2147483648 : ℚ) then
             (PRes.err (SchemeError.OverflowError
               ("Overflow while converting " ++ n.display ++ " to i32")), st)
           else (PRes.abort, st))
  | [_] => (PRes.err (SchemeError.TypeError "Invalid type Number."), st)
  | _ =>
      (PRes.err (SchemeError.ArgCountError
        ("Invalid arg-count " ++ toString args.length ++ " expected 1.")), st)

/-- Shared expansion of `extract_args!(args, 2, a: Number, b: Number)`
followed by a boolean comparison of the two numbers; the comparison
predicate is the promoted numeric one of `PartialOrd`/`PartialEq for
Number`. -/
def primCompare (st : Interp) (args : List Value) (cmp : ℚ → ℚ → Bool) : PRes Value × Interp :=
  match args with
  | [Value.Number a, Value.Number b] => (PRes.ok (Value.Boolean (cmp a.toRat b.toRat)), st)
  | [_, _] => (PRes.err (SchemeError.TypeError "Invalid type Number."), st)
  | _ =>
      (PRes.err (SchemeError.ArgCountError
        ("Invalid arg-count " ++ toString args.length ++ " expected 2.")), st)

/-- Mirrors `primitive_number_eq`. -/
def primitive_number_eq (st : Interp) (args : List Value) : PRes Value × Interp :=
  primCompare st args (fun a b => decide (a = b))

/-- Mirrors `primitive_number_lt`. -/
def primitive_number_lt (st : Interp) (args : List Value) : PRes Value × Interp :=
  primCompare st args (fun a b => decide (a < b))

/-- Mirrors `primitive_number_lte`. -/
def primitive_number_lte (st : Interp) (args : List Value) : PRes Value × Interp :=
  primCompare st args (fun a b => decide (a ≤ b))

/-- Mirrors `primitive_number_gt`. -/
def primitive_number_gt (st : Interp) (args : List Value) : PRes Value × Interp :=
  primCompare st args (fun a b => decide (b < a))

/-- Mirrors `primitive_number_gte`. -/
def primitive_number_gte (st : Interp) (args : List Value) : PRes Value × Interp :=
  primCompare st args (fun a b => decide (b ≤ a))

/-- Mirrors `primitive_number_max`: fold of `if a > b { a } else { b }`
over all the numbers, seeded with the first. -/
def primitive_number_max (st : Interp) (args : List Value) : PRes Value × Interp :=
  match allNumbers args with
  | Except.error e => (PRes.err e, st)
  | Except.ok [] => (PRes.err (SchemeError.ArgCountError "max expects at least one arg."), st)
  | Except.ok (x :: rest) =>
      (PRes.ok (Value.Number
        ((x :: rest).foldl (fun a b => if decide (b.toRat < a.toRat) then a else b) x)), st)

/-- Mirrors `primitive_number_min`. -/
def primitive_number_min (st : Interp) (args : List Value) : PRes Value × Interp :=
  match allNumbers args with
  | Except.error e => (PRes.err e, st)
  | Except.ok [] => (PRes.err (SchemeError.ArgCountError "min expects at least one arg."), st)
  | Except.ok (x :: rest) =>
      (PRes.ok (Value.Number
        ((x :: rest).foldl (fun a b => if decide (a.toRat < b.toRat) then a else b) x)), st)

/-- Mirrors `primitive_number_p` (only the empty argument list is
rejected; extra arguments are ignored). -/
def primitive_number_p (st : Interp) (args : List Value) : PRes Value × Interp :=
  match args with
  | [] => (PRes.err (SchemeError.ArgCountError "numberp? expects exactly one arg."), st)
  | Value.Number _ :: _ => (PRes.ok (Value.Boolean true), st)
  | _ :: _ => (PRes.ok (Value.Boolean false), st)

/-- Mirrors `primitive_integer_p` via `Interp::is_integer`. -/
def primitive_integer_p (st : Interp) (args : List Value) : PRes Value × Interp :=
  match args with
  | [] => (PRes.err (SchemeError.ArgCountError "integer? expects exactly one arg."), st)
  | Value.Number (Number.Int _) :: _ => (PRes.ok (Value.Boolean true), st)
  | _ :: _ => (PRes.ok (Value.Boolean false), st)

/-- Mirrors `primitive_float_p` via `Interp::is_float`. -/
def primitive_float_p (st : Interp) (args : List Value) : PRes Value × Interp :=
  match args with
  | [] => (PRes.err (SchemeError.ArgCountError "float? expects exactly one arg."), st)
  | Value.Number (Number.Float _) :: _ => (PRes.ok (Value.Boolean true), st)
  | _ :: _ => (PRes.ok (Value.Boolean false), st)

/-- Mirrors `primitive_list` of interp.rs.  Note the source passes
`args[1..]` to `alloc_list`, dropping the first argument. -/
def primitive_list (st : Interp) (args : List Value) : PRes Value × Interp :=
  match args with
  | [] => (PRes.ok Value.Nil, st)
  | _ :: rest =>
      let (v, st1) := allocList st rest
      (PRes.ok v, st1)

/-- Mirrors `Interp::is_list`: a heap Pair or Nil. -/
def isListB (st : Interp) (v : Value) : Bool :=
  match v with
  | Value.Object id =>
      (match heapGet st id with
       | some (HeapObject.Pair _ _) => true
       | _ => false)
  | Value.Nil => true
  | _ => false

/-- Mirrors `primitive_list_p`. -/
def primitive_list_p (st : Interp) (args : List Value) : PRes Value × Interp :=
  match args with
  | [] =>
      (PRes.err (SchemeError.ArgCountError "list? takes exactly one arg, but got 0."), st)
  | v :: _ => (PRes.ok (Value.Boolean (isListB st v)), st)

/-- Mirrors `primitive_null_p` (whose message also says "list?": copied
verbatim from the source). -/
def primitive_null_p (st : Interp) (args : List Value) : PRes Value × Interp :=
  match args with
  | [Value.Nil] => (PRes.ok (Value.Boolean true), st)
  | [_] => (PRes.ok (Value.Boolean false), st)
  | _ =>
      (PRes.err (SchemeError.ArgCountError
        ("list? expects one arg, but got " ++ toString args.length)), st)

/-- Mirrors `primitive_list_car` of interp.rs: the argument must be a heap
reference to the `HeapObject::List` variant; every other heap object,
Pairs included, falls to the TypeError arm (whose message mentions cdr:
copied verbatim from the source). -/
def primitive_list_car (st : Interp) (args : List Value) : PRes Value × Interp :=
  match args with
  | [Value.Object id] =>
      (match heapGet st id with
       | some (HeapObject.List []) =>
           (PRes.err (SchemeError.EvalError "Can\x27t take the car of an empty list."), st)
       | some (HeapObject.List (v :: _)) => (PRes.ok v, st)
       | some obj =>
           (PRes.err (SchemeError.TypeError
             ("Invalid type " ++ obj.typeName ++ " for cdr, expecting a List")), st)
       | none => (PRes.abort, st))
  | [_] => (PRes.err (SchemeError.TypeError "Invalid type Object."), st)
  | _ =>
      (PRes.err (SchemeError.ArgCountError
        ("Invalid arg-count " ++ toString args.length ++ " expected 1.")), st)

/-- Mirrors `primitive_list_cdr` of interp.rs: same `HeapObject::List`
restriction as car; the nonempty case re-allocates the tail with
`alloc_list`. -/
def primitive_list_cdr (st : Interp) (args : List Value) : PRes Value × Interp :=
  match args with
  | [Value.Object id] =>
      (match heapGet st id with
       | some (HeapObject.List []) =>
           (PRes.err (SchemeError.EvalError "Can\x27t take the cdr of an empty list."), st)
       | some (HeapObject.List (_ :: rest)) =>
           let (v, st1) := allocList st rest
           (PRes.ok v, st1)
       | some obj =>
           (PRes.err (SchemeError.TypeError
             ("Invalid type " ++ obj.typeName ++ " for cdr, expecting a List")), st)
       | none => (PRes.abort, st))
  | [_] => (PRes.err (SchemeError.TypeError "Invalid type Object."), st)
  | _ =>
      (PRes.err (SchemeError.ArgCountError
        ("Invalid arg-count " ++ toString args.length ++ " expected 1.")), st)

/-- Dispatch table connecting the `Prim` names to the primitive functions,
the composition of the Rust function pointers stored in the heap with a
call through them. -/
def applyPrim (p : Prim) (st : Interp) (args : List Value) : PRes Value × Interp :=
  match p with
  | Prim.numberP => primitive_number_p st args
  | Prim.integerP => primitive_integer_p st args
  | Prim.floatP => primitive_float_p st args
  | Prim.add => primitive_add st args
  | Prim.sub => primitive_sub st args
  | Prim.mul => primitive_mul st args
  | Prim.div => primitive_div st args
  | Prim.rem => primitive_rem st args
  | Prim.numEq => primitive_number_eq st args
  | Prim.numLt => primitive_number_lt st args
  | Prim.numGt => primitive_number_gt st args
  | Prim.numLe => primitive_number_lte st args
  | Prim.numGe => primitive_number_gte st args
  | Prim.maxN => primitive_number_max st args
  | Prim.minN => primitive_number_min st args
  | Prim.list => primitive_list st args
  | Prim.listP => primitive_list_p st args
  | Prim.nullP => primitive_null_p st args
  | Prim.car => primitive_list_car st args
  | Prim.cdr => primitive_list_cdr st args
  | Prim.quit => primitive_quit st args

/-- Mirrors `Keyword` of heap.rs. -/
inductive Keyword
  | If
  | Define
  | Lambda
  | Quote
  | True
  | False
  | SetBang
deriving DecidableEq, Repr

/-- Mirrors `Keyword::from_id`. -/
def Keyword.fromId : GcId → Option Keyword
  | 0 => some Keyword.If
  | 1 => some Keyword.Define
  | 2 => some Keyword.Lambda
  | 3 => some Keyword.Quote
  | 4 => some Keyword.True
  | 5 => some Keyword.False
  | 6 => some Keyword.SetBang
  | _ => none

/-- Mirrors `Interp::is_pair`. -/
def isPairV (st : Interp) (v : Value) : Option (Value × Value) :=
  match v with
  | Value.Object id =>
      (match heapGet st id with
       | some (HeapObject.Pair a b) => some (a, b)
       | _ => none)
  | _ => none

/-- Mirrors `Heap::fold_list` with the argument-collecting closure of
`GcId::eval` (push without evaluating); `none` when the fuel runs out
before the chain ends. -/
def collectChain : Nat → Interp → Value → Option (List Value)
  | 0, _, _ => none
  | fuel + 1, st, v =>
      match isPairV st v with
      | some (a, b) =>
          (match collectChain fuel st b with
           | some rest => some (a :: rest)
           | none => none)
      | none => some []

/-- Modelled from the spec: `Value::type_name` is called by interp.rs but
its definition is not among the provided sources; §3 of the spec names the
Value variants.  It only feeds error-message strings that no theorem in
this file inspects. -/
def Value.typeName : Value → String
  | Value.Number _ => "Number"
  | Value.Boolean _ => "Boolean"
  | Value.Object _ => "Object"
  | Value.Nil => "Nil"

/-- Mirrors `Interp::to_symbol` (which goes through `to_object`); an
out-of-range heap index is the host panic of `Heap::get`. -/
def toSymbol (st : Interp) (v : Value) : PRes GcId :=
  match v with
  | Value.Object id =>
      (match heapGet st id with
       | some (HeapObject.Symbol _) => PRes.ok id
       | some _ =>
           PRes.err (SchemeError.TypeError
             ("Expected a Symbol, but got a " ++ v.typeName ++ "."))
       | none => PRes.abort)
  | _ =>
      PRes.err (SchemeError.TypeError ("Expected an Object, got a " ++ v.typeName))

/-- Mirrors `extract_param_ids` of heap.rs: fold over the parameter chain,
converting each element with `to_symbol` and stopping at the first
error. -/
def extractParamIds : Nat → Interp → Value → PRes (List GcId)
  | 0, _, _ => PRes.abort
  | fuel + 1, st, v =>
      match isPairV st v with
      | some (a, b) =>
          (match toSymbol st a with
           | PRes.ok id =>
               (match extractParamIds fuel st b with
                | PRes.ok rest => PRes.ok (id :: rest)
                | r => r)
           | PRes.err e => PRes.err e
           | PRes.abort => PRes.abort)
      | none => PRes.ok []

/-- The parameter-binding loop of `Apply::apply`: zip parameters with
argument values, defining each in frame `eid`. -/
def defineParams : Interp → EnvId → List GcId → List Value → Interp
  | st, _, [], _ => st
  | st, _, _ :: _, [] => st
  | st, eid, p :: ps, a :: rest => defineParams (envDefine st eid p a) eid ps rest

mutual

/-- Mirrors `SchemeObject::eval for Value`: scalars self-evaluate, heap
references evaluate through `GcId::eval`.  The fuel models the host call
stack; exhausting it is a host-level abnormal end. -/
def evalV : Nat → Interp → EnvId → Value → PRes Value × Interp
  | 0, st, _, _ => (PRes.abort, st)
  | fuel + 1, st, env, v =>
      match v with
      | Value.Object id => evalId fuel st env id
      | _ => (PRes.ok v, st)

termination_by structural fuel _ _ _ => fuel
/-- Mirrors `SchemeObject::eval for GcId` of heap.rs. -/
def evalId : Nat → Interp → EnvId → GcId → PRes Value × Interp
  | 0, st, _, _ => (PRes.abort, st)
  | fuel + 1, st, env, id =>
      match heapGet st id with
      | none => (PRes.abort, st)
      | some (HeapObject.Pair car cdr) =>
          (match car with
           | Value.Object fid =>
               (match Keyword.fromId fid with
                | some kw =>
                    (match collectChain (st.objects.length + 1) st cdr with
                     | some args => kwEval fuel st env kw args
                     | none => (PRes.abort, st))
                | none => evalCombination fuel st env car cdr)
           | _ => evalCombination fuel st env car cdr)
      | some (HeapObject.List elems) =>
          (match elems with
           | [] => (PRes.ok Value.Nil, st)
           | func :: rest =>
               (match func with
                | Value.Object fid =>
                    (match Keyword.fromId fid with
                     | some kw => kwEval fuel st env kw rest
                     | none => evalListComb fuel st env func rest)
                | _ => evalListComb fuel st env func rest))
      | some (HeapObject.Symbol name) =>
          (match envLookupF (st.envs.length + 1) st.envs env id with
           | some (some value) => (PRes.ok value, st)
           | some none =>
               (PRes.err (SchemeError.UnboundVariable ("Unbound symbol: " ++ name)), st)
           | none => (PRes.abort, st))
      | some (HeapObject.FreeSlot _) =>
          (PRes.err (SchemeError.ImplementationError
            ("Request to evaluate FreeSlot at " ++ toString id)), st)
      | some _ => (PRes.ok (Value.Object id), st)

termination_by structural fuel _ _ _ => fuel
/-- The non-special-form arm of the Pair case of `GcId::eval`: the
argument chain is evaluated first (left to right, stopping at the first
error but keeping the state reached, as the `RefCell` heap keeps its
mutations), then the operator, then — propagating an operator error
before an argument error exactly as `car.eval(..)?.apply(.., args?)`
does — the application. -/
def evalCombination : Nat → Interp → EnvId → Value → Value → PRes Value × Interp
  | 0, st, _, _, _ => (PRes.abort, st)
  | fuel + 1, st, env, car, cdr =>
      match evalArgsChain fuel st env cdr with
      | (PRes.abort, st1) => (PRes.abort, st1)
      | (argsR, st1) =>
          (match evalV fuel st1 env car with
           | (PRes.ok fv, st2) =>
               (match argsR with
                | PRes.ok argv => applyV fuel st2 env fv argv
                | PRes.err e => (PRes.err e, st2)
                | PRes.abort => (PRes.abort, st2))
           | (PRes.err e, st2) => (PRes.err e, st2)
           | (PRes.abort, st2) => (PRes.abort, st2))

termination_by structural fuel _ _ _ _ => fuel
/-- The non-special-form arm of the (never-allocated) List case of
`GcId::eval`: there the `?` on the collected arguments propagates an
argument error before the operator is evaluated. -/
def evalListComb : Nat → Interp → EnvId → Value → List Value → PRes Value × Interp
  | 0, st, _, _, _ => (PRes.abort, st)
  | fuel + 1, st, env, func, rest =>
      match evalEach fuel st env rest with
      | (PRes.ok argv, st1) =>
          (match evalV fuel st1 env func with
           | (PRes.ok fv, st2) => applyV fuel st2 env fv argv
           | (PRes.err e, st2) => (PRes.err e, st2)
           | (PRes.abort, st2) => (PRes.abort, st2))
      | (PRes.err e, st1) => (PRes.err e, st1)
      | (PRes.abort, st1) => (PRes.abort, st1)

termination_by structural fuel _ _ _ _ => fuel
/-- Left-to-right evaluation of a plain list of expressions (the
`rest.iter().map(eval).collect::<Result<..>>()` of the List arm). -/
def evalEach : Nat → Interp → EnvId → List Value → PRes (List Value) × Interp
  | 0, st, _, _ => (PRes.abort, st)
  | _ + 1, st, _, [] => (PRes.ok [], st)
  | fuel + 1, st, env, a :: rest =>
      match evalV fuel st env a with
      | (PRes.ok v, st1) =>
          (match evalEach fuel st1 env rest with
           | (PRes.ok vs, st2) => (PRes.ok (v :: vs), st2)
           | (PRes.err e, st2) => (PRes.err e, st2)
           | (PRes.abort, st2) => (PRes.abort, st2))
      | (PRes.err e, st1) => (PRes.err e, st1)
      | (PRes.abort, st1) => (PRes.abort, st1)

termination_by structural fuel _ _ _ => fuel
/-- Mirrors `Heap::fold_list` with the argument-evaluating closure of the
Pair arm of `GcId::eval`: walk the cons chain, evaluating each car
left-to-right, stopping at the first error. -/
def evalArgsChain : Nat → Interp → EnvId → Value → PRes (List Value) × Interp
  | 0, st, _, _ => (PRes.abort, st)
  | fuel + 1, st, env, v =>
      match isPairV st v with
      | some (a, b) =>
          (match evalV fuel st env a with
           | (PRes.ok val, st1) =>
               (match evalArgsChain fuel st1 env b with
                | (PRes.ok rest, st2) => (PRes.ok (val :: rest), st2)
                | (PRes.err e, st2) => (PRes.err e, st2)
                | (PRes.abort, st2) => (PRes.abort, st2))
           | (PRes.err e, st1) => (PRes.err e, st1)
           | (PRes.abort, st1) => (PRes.abort, st1))
      | none => (PRes.ok [], st)

termination_by structural fuel _ _ _ => fuel
/-- Mirrors `Keyword::eval` of heap.rs.  Note the Lambda arm: the captured
environment is `Rc::clone(&interp.env)` — the interpreter's global frame
`globalEnvId` — not the `env` parameter the expression is evaluated in;
and its argument pattern `[params_value, body @ ..]` accepts an empty
body, so the "at least 2 arguments" error fires only for zero
arguments. -/
def kwEval : Nat → Interp → EnvId → Keyword → List Value → PRes Value × Interp
  | 0, st, _, _, _ => (PRes.abort, st)
  | fuel + 1, st, env, kw, args =>
      match kw with
      | Keyword.If =>
          (match args with
           | [c, t, e] =>
               (match evalV fuel st env c with
                | (PRes.ok cond, st1) =>
                    (match cond with
                     | Value.Boolean true => evalV fuel st1 env t
                     | Value.Boolean false => evalV fuel st1 env e
                     | _ =>
                         (PRes.err (SchemeError.TypeError
                           "if condition must evaluate to a boolean"), st1))
                | r => r)
           | _ => (PRes.err (SchemeError.EvalError "if expects exactly 3 arguments"), st))
      | Keyword.Define =>
          (match args with
           | [var, vexpr] =>
               (match evalV fuel st env vexpr with
                | (PRes.ok value, st1) =>
                    (match var with
                     | Value.Object varId => (PRes.ok value, envDefine st1 env varId value)
                     | _ =>
                         (PRes.err (SchemeError.TypeError
                           "set! first argument must be a variable"), st1))
                | r => r)
           | _ => (PRes.err (SchemeError.EvalError "define! expects exactly 2 arguments"), st))
      | Keyword.Lambda =>
          (match args with
           | paramsValue :: body =>
               (match extractParamIds (st.objects.length + 1) st paramsValue with
                | PRes.ok params =>
                    let (cv, st1) := allocClosure st params body globalEnvId
                    (PRes.ok cv, st1)
                | PRes.err e => (PRes.err e, st)
                | PRes.abort => (PRes.abort, st))
           | [] => (PRes.err (SchemeError.EvalError "lambda expects at least 2 arguments"), st))
      | Keyword.Quote =>
          (match args with
           | [x] => (PRes.ok x, st)
           | _ => (PRes.err (SchemeError.EvalError "quote expects exactly 1 argument"), st))
      | Keyword.SetBang =>
          (match args with
           | [var, vexpr] =>
               (match evalV fuel st env vexpr with
                | (PRes.ok value, st1) =>
                    (match var with
                     | Value.Object varId =>
                         (match setBangF (st1.envs.length + 1) st1.envs env varId value with
                          | some (Except.ok _, envs1) => (PRes.ok value, { st1 with envs := envs1 })
                          | some (Except.error e, envs1) => (PRes.err e, { st1 with envs := envs1 })
                          | none => (PRes.abort, st1))
                     | _ =>
                         (PRes.err (SchemeError.TypeError
                           "set! first argument must be a variable"), st1))
                | r => r)
           | _ => (PRes.err (SchemeError.EvalError "set! expects exactly 2 arguments"), st))
      | _ => (PRes.err (SchemeError.EvalError "not implemented"), st)

termination_by structural fuel _ _ _ _ => fuel
/-- Mirrors `Apply::apply for Value` of heap.rs (whose `_env` parameter is
unused): closures check arity, extend their captured frame, bind the
parameters and run the body; primitives dispatch through the function
pointer. -/
def applyV : Nat → Interp → EnvId → Value → List Value → PRes Value × Interp
  | 0, st, _, _, _ => (PRes.abort, st)
  | fuel + 1, st, _, fv, args =>
      match fv with
      | Value.Object id =>
          (match heapGet st id with
           | some (HeapObject.Closure params body cenv) =>
               if params.length ≠ args.length then
                 (PRes.err (SchemeError.EvalError
                   "Incorrect number of arguments passed to closure"), st)
               else
                 let (newEnv, st1) := envExtend st cenv
                 evalBody fuel (defineParams st1 newEnv params args) newEnv body
           | some (HeapObject.Primitive p) => applyPrim p st args
           | some _ =>
               (PRes.err (SchemeError.TypeError
                 "Attempted to apply a non-primitive object"), st)
           | none => (PRes.abort, st))
      | _ => (PRes.err (SchemeError.TypeError "Attempted to apply a non-object value"), st)

termination_by structural fuel _ _ _ _ => fuel
/-- The body loop of `Apply::apply`: result starts as Nil (so an empty
body yields Nil), each form is evaluated in order and the last value is
returned. -/
def evalBody : Nat → Interp → EnvId → List Value → PRes Value × Interp
  | 0, st, _, _ => (PRes.abort, st)
  | _ + 1, st, _, [] => (PRes.ok Value.Nil, st)
  | fuel + 1, st, env, e :: rest =>
      match evalV fuel st env e with
      | (PRes.ok v, st1) =>
          (match rest with
           | [] => (PRes.ok v, st1)
           | _ :: _ => evalBody fuel st1 env rest)
      | r => r

termination_by structural fuel _ _ _ => fuel
end

/-- The state before any interning: empty heap plus the global frame that
`Interp::new` creates. -/
def emptyInterp : Interp :=
  { objects := [], symbols := [], envs := [{ bindings := [], parent := none }] }

/-- Mirrors `Heap::new` with `intern_special_keywwords`: the seven keyword
symbols are pre-interned so their ids equal the `Keyword` ordinals 0..6
(`if`, `define`, `lambda`, `quote`, `#t`, `#f`, `set!`). -/
def heapNew : Interp :=
  let st := emptyInterp
  let (_, st) := internSymbolToGcid st "if"
  let (_, st) := internSymbolToGcid st "define"
  let (_, st) := internSymbolToGcid st "lambda"
  let (_, st) := internSymbolToGcid st "quote"
  let (_, st) := internSymbolToGcid st "#t"
  let (_, st) := internSymbolToGcid st "#f"
  let (_, st) := internSymbolToGcid st "set!"
  st

/-- Mirrors `Interp::define`: intern the name and bind it in the global
frame. -/
def defineName (st : Interp) (name : String) (v : Value) : Interp :=
  let (sym, st1) := internSymbol st name
  match sym with
  | Value.Object id => envDefine st1 globalEnvId id v
  | _ => st1

/-- Mirrors `Interp::define_primitive`. -/
def definePrimitive (st : Interp) (name : String) (p : Prim) : Interp :=
  let (pv, st1) := allocPrimitive st p
  defineName st1 name pv

/-- Mirrors `Interp::new` followed by `Interp::init`, definition for
definition in the source order.  The registration of `cons` is commented
out in the source and is therefore absent here too. -/
def initInterp : Interp :=
  let st := heapNew
  let st := defineName st "#t" (Value.Boolean true)
  let st := defineName st "#f" (Value.Boolean false)
  let st := definePrimitive st "number?" Prim.numberP
  let st := definePrimitive st "integer?" Prim.integerP
  let st := definePrimitive st "float?" Prim.floatP
  let st := definePrimitive st "+" Prim.add
  let st := definePrimitive st "-" Prim.sub
  let st := definePrimitive st "*" Prim.mul
  let st := definePrimitive st "/" Prim.div
  let st := definePrimitive st "%" Prim.rem
  let st := definePrimitive st "=" Prim.numEq
  let st := definePrimitive st "<" Prim.numLt
  let st := definePrimitive st ">" Prim.numGt
  let st := definePrimitive st "<=" Prim.numLe
  let st := definePrimitive st ">=" Prim.numGe
  let st := definePrimitive st "max" Prim.maxN
  let st := definePrimitive st "min" Prim.minN
  let st := definePrimitive st "list" Prim.list
  let st := definePrimitive st "list?" Prim.listP
  let st := definePrimitive st "null?" Prim.nullP
  let st := definePrimitive st "car" Prim.car
  let st := definePrimitive st "cdr" Prim.cdr
  let st := definePrimitive st "quit" Prim.quit
  let st := definePrimitive st "exit" Prim.quit
  st

/-- The program `(((lambda (x) (lambda () x)) 42))` as the reader would
build it: `lambda` is the pre-interned keyword symbol `Value.Object 2`,
the empty parameter list reads as Nil, and each paren list becomes an
`alloc_list` Pair chain. -/
def c1Prog : Value × Interp :=
  let st := initInterp
  let (x, st) := internSymbol st "x"
  let (paramsOuter, st) := allocList st [x]
  let (innerLam, st) := allocList st [Value.Object 2, Value.Nil, x]
  let (outerLam, st) := allocList st [Value.Object 2, paramsOuter, innerLam]
  let (app1, st) := allocList st [outerLam, Value.Number (Number.Int 42)]
  allocList st [app1]

/-- The program `(car (quote (1 2)))`, the reading of `(car '(1 2))`:
the quote sugar of the reader produces the two-element list headed by the
pre-interned keyword symbol `Value.Object 3`. -/
def c2Prog : Value × Interp :=
  let st := initInterp
  let (carSym, st) := internSymbol st "car"
  let (lst, st) := allocList st [Value.Number (Number.Int 1), Value.Number (Number.Int 2)]
  let (quoted, st) := allocList st [Value.Object 3, lst]
  allocList st [carSym, quoted]

/-- The program `(if 0 1 2)`: `if` is the pre-interned keyword symbol
`Value.Object 0`. -/
def c3Prog : Value × Interp :=
  allocList initInterp
    [Value.Object 0, Value.Number (Number.Int 0),
     Value.Number (Number.Int 1), Value.Number (Number.Int 2)]

/-- The program `(lambda (x))`: a parameter list and no body form. -/
def c8Prog : Value × Interp :=
  let st := initInterp
  let (x, st) := internSymbol st "x"
  let (params1, st) := allocList st [x]
  allocList st [Value.Object 2, params1]

/-- Observation: the parameter ids, body and captured frame of the
closure a successful evaluation returned, if it returned one. -/
def closureShape (r : PRes Value × Interp) : Option (List GcId × List Value × EnvId) :=
  match r with
  | (PRes.ok (Value.Object id), st) =>
      (match heapGet st id with
       | some (HeapObject.Closure ps body env) => some (ps, body, env)
       | _ => none)
  | _ => none

/-- Observation: read a Pair chain back as the list of its cars. -/
def decodeChain : Nat → Interp → Value → Option (List Value)
  | 0, _, _ => none
  | fuel + 1, st, v =>
      match v with
      | Value.Nil => some []
      | Value.Object id =>
          (match heapGet st id with
           | some (HeapObject.Pair a b) =>
               (match decodeChain fuel st b with
                | some rest => some (a :: rest)
                | none => none)
           | _ => none)
      | _ => none

/-- Observation: does frame `eid` bind a key whose heap object is the
symbol named `name`? -/
def bindsSymbolNamed (st : Interp) (eid : EnvId) (name : String) : Bool :=
  match st.envs[eid]? with
  | some f => f.bindings.any (fun kv => decide (heapGet st kv.1 = some (HeapObject.Symbol name)))
  | none => false

/-- C1: the claim says a lambda captures the environment `e` it is
evaluated in; the code captures `interp.env`, the global frame, instead
(`Keyword::eval`, Lambda arm), so `(((lambda (x) (lambda () x)) 42))`
evaluates to UnboundVariable for `x` where lexical capture would give 42:
the inner closure, created while `x` is bound in the call frame, resolves
`x` against the global frame when invoked. -/
theorem lambda_capture_bug :
    (evalV 64 c1Prog.2 globalEnvId c1Prog.1).1 =
      PRes.err (SchemeError.UnboundVariable "Unbound symbol: x") := by decide

/-- C2: the claim says `car` of a Pair returns its car field and
`(car (quote (1 2)))` yields 1; `primitive_list_car` only accepts the
never-allocated `HeapObject::List` variant, so applying `car` to the Pair
chain the reader builds fails with a TypeError (the repository's own test
`test_read_eval_list` expects 1 here). -/
theorem car_pair_bug :
    (evalV 32 c2Prog.2 globalEnvId c2Prog.1).1 =
      PRes.err (SchemeError.TypeError "Invalid type Pair for cdr, expecting a List") := by
  decide

/-- C3 counterexample: `(if 0 1 2)` does not dispatch the then branch as
the sole-false-value truthiness claim demands; the If arm of
`Keyword::eval` raises a TypeError for every non-boolean condition. -/
theorem if_nonboolean_counterexample :
    (evalV 8 c3Prog.2 globalEnvId c3Prog.1).1 =
      PRes.err (SchemeError.TypeError "if condition must evaluate to a boolean") ∧
    (evalV 8 c3Prog.2 globalEnvId c3Prog.1).1 ≠ PRes.ok (Value.Number (Number.Int 1)) := by
  constructor
  · decide
  · decide

/-- C4: the claim says `list` applied to v1 ... vn returns the proper list
(v1 ... vn); `primitive_list` hands `args[1..]` to `alloc_list`, so on the
already-evaluated arguments 1 2 3 it returns the chain (2 3), dropping the
first argument. -/
theorem list_drops_first_bug :
    (match primitive_list initInterp
        [Value.Number (Number.Int 1), Value.Number (Number.Int 2),
         Value.Number (Number.Int 3)] with
     | (PRes.ok v, st) => decodeChain 8 st v
     | _ => none) =
      some [Value.Number (Number.Int 2), Value.Number (Number.Int 3)] := by decide

/-- C5 counterexample: at startup the global frame binds no key whose heap
object is the symbol `cons` — the name is not even interned — while `car`
is bound, refuting the claim that startup binds `cons` to a
pair-allocating primitive. -/
theorem cons_not_bound_counterexample :
    bindsSymbolNamed initInterp globalEnvId "cons" = false ∧
    bindsSymbolNamed initInterp globalEnvId "car" = true ∧
    alLookup "cons" initInterp.symbols = none := by
  refine ⟨by decide, by decide, by decide⟩

/-- C5 (amended): the registration of `cons` is commented out in
`Interp::init`, so `cons` is unbound at startup and evaluating the symbol
yields an UnboundVariable error. -/
theorem cons_unbound_amended :
    (evalV 8 (internSymbol initInterp "cons").2 globalEnvId
        (internSymbol initInterp "cons").1).1 =
      PRes.err (SchemeError.UnboundVariable "Unbound symbol: cons") := by decide

/-- C8: the claim says a lambda with a parameter list and no body form
fails; the `[params_value, body @ ..]` pattern of the Lambda arm accepts
it, so `(lambda (x))` evaluates to a closure whose body is empty (its one
parameter is the interned id 51 of `x`, its captured frame the global
one). -/
theorem lambda_empty_body_bug :
    closureShape (evalV 16 c8Prog.2 globalEnvId c8Prog.1) = some ([51], [], globalEnvId) := by
  decide

theorem alLookup_alInsert_self {κ α : Type} [DecidableEq κ] (key : κ) (v : α)
    (l : List (κ × α)) : alLookup key (alInsert key v l) = some v := by
  induction l with
  | nil => simp [alInsert, alLookup]
  | cons p t ih =>
      obtain ⟨k, w⟩ := p
      by_cases hk : k = key
      · simp [alInsert, alLookup, hk]
      · simp [alInsert, alLookup, hk, ih]

theorem alLookup_alInsert_ne {κ α : Type} [DecidableEq κ] (key k2 : κ) (v : α)
    (l : List (κ × α)) (h : k2 ≠ key) :
    alLookup k2 (alInsert key v l) = alLookup k2 l := by
  induction l with
  | nil =>
      have h1 : key ≠ k2 := fun hh => h hh.symm
      simp [alInsert, alLookup, h1]
  | cons p t ih =>
      obtain ⟨k, w⟩ := p
      by_cases hk : k = key
      · subst hk
        have h1 : k ≠ k2 := fun hh => h hh.symm
        simp [alInsert, alLookup, h1]
      · by_cases hk2 : k = k2
        · subst hk2
          simp [alInsert, alLookup, hk]
        · simp [alInsert, alLookup, hk, hk2, ih]

/-- C6: `Env::set_bang` walks the parent chain from the current frame; when
some frame of the chain already binds the symbol it succeeds and updates
that binding in the nearest such frame, touching no other binding and no
other frame; when no frame of the chain binds it, it returns an
UnboundVariable error and leaves the whole frame arena unchanged. -/
theorem set_bang_spec (fuel : Nat) (envs : List Frame) (eid : EnvId) (key : GcId)
    (v : Value) (res : Except SchemeError Unit) (envs2 : List Frame)
    (h : setBangF fuel envs eid key v = some (res, envs2)) :
    match (chainF fuel envs eid).find? (fun j => (alLookup key (bindingsAt envs j)).isSome) with
    | some j =>
        res = Except.ok () ∧
        alLookup key (bindingsAt envs2 j) = some v ∧
        (∀ k, k ≠ key → alLookup k (bindingsAt envs2 j) = alLookup k (bindingsAt envs j)) ∧
        (∀ i, i ≠ j → envs2[i]? = envs[i]?)
    | none =>
        res = Except.error (SchemeError.UnboundVariable
                ("Unbound variable with GcId " ++ toString key)) ∧
        envs2 = envs := by
  induction fuel generalizing eid with
  | zero => simp [setBangF] at h
  | succ fuel ih =>
      rw [setBangF] at h
      split at h
      next henv => exact Option.noConfusion h
      next f henv =>
        have hbind : bindingsAt envs eid = f.bindings := by simp [bindingsAt, henv]
        split at h
        next hb =>
          simp only [Option.some.injEq, Prod.mk.injEq] at h
          obtain ⟨hres, henvs2⟩ := h
          have hfind : (chainF (fuel + 1) envs eid).find?
              (fun j => (alLookup key (bindingsAt envs j)).isSome) = some eid := by
            rw [chainF, henv]
            exact List.find?_cons_of_pos _ (by simpa [hbind] using hb)
          rw [hfind]
          have hlt : eid < envs.length := by
            rcases List.getElem?_eq_some.mp henv with ⟨hl, _⟩
            exact hl
          have hgot : envs2[eid]? = some { f with bindings := alInsert key v f.bindings } := by
            rw [← henvs2]
            exact List.getElem?_set_self hlt
          refine ⟨hres.symm, ?_, ?_, ?_⟩
          · simp [bindingsAt, hgot, alLookup_alInsert_self]
          · intro k hk
            simp [bindingsAt, hgot, henv, alLookup_alInsert_ne key k v f.bindings hk]
          · intro i hi
            rw [← henvs2]
            exact List.getElem?_set_ne (fun hh => hi hh.symm)
        next hb =>
          have hfind : (chainF (fuel + 1) envs eid).find?
                (fun j => (alLookup key (bindingsAt envs j)).isSome) =
              (match f.parent with
               | some p => chainF fuel envs p
               | none => ([] : List EnvId)).find?
                (fun j => (alLookup key (bindingsAt envs j)).isSome) := by
            rw [chainF, henv]
            exact List.find?_cons_of_neg _ (by simpa [hbind] using hb)
          split at h
          next p hp =>
              rw [hfind, hp]
              exact ih p h
          next hp =>
              rw [hfind, hp]
              simp only [List.find?]
              simp only [Option.some.injEq, Prod.mk.injEq] at h
              exact ⟨h.1.symm, h.2.symm⟩

instance : DecidableEq (Except SchemeError Unit) := fun a b =>
  match a, b with
  | Except.ok (), Except.ok () => isTrue rfl
  | Except.error x, Except.error y =>
      if h : x = y then isTrue (by rw [h]) else isFalse (by simp [h])
  | Except.ok _, Except.error _ => isFalse (by simp)
  | Except.error _, Except.ok _ => isFalse (by simp)

/-- Frame arena of the witness for `set_bang_spec`: a global frame binding
key 9 and a child frame not binding it. -/
def wEnvs : List Frame :=
  [{ bindings := [(9, Value.Nil)], parent := none },
   { bindings := [], parent := some 0 }]

/-- The arena `wEnvs` after `set_bang` rebinds key 9 in the global frame. -/
def wEnvs2 : List Frame :=
  [{ bindings := [(9, Value.Boolean true)], parent := none },
   { bindings := [], parent := some 0 }]

theorem set_bang_spec_witness :
    setBangF 3 wEnvs 1 9 (Value.Boolean true) = some (Except.ok (), wEnvs2) ∧
    alLookup 9 (bindingsAt wEnvs2 0) = some (Value.Boolean true) := by
  have h := set_bang_spec 3 wEnvs 1 9 (Value.Boolean true) (Except.ok ()) wEnvs2 (by decide)
  have hfind : (chainF 3 wEnvs 1).find?
      (fun j => (alLookup 9 (bindingsAt wEnvs j)).isSome) = some 0 := by decide
  rw [hfind] at h
  exact ⟨by decide, h.2.1⟩

theorem alLookup_mem {κ α : Type} [DecidableEq κ] (key : κ) (l : List (κ × α)) (v : α)
    (h : alLookup key l = some v) : (key, v) ∈ l := by
  induction l with
  | nil => simp [alLookup] at h
  | cons p t ih =>
      obtain ⟨k, w⟩ := p
      by_cases hk : k = key
      · subst hk
        simp [alLookup] at h
        simp [h]
      · simp [alLookup, hk] at h
        exact List.mem_cons_of_mem _ (ih h)

/-- Invariant of the interning table of `Heap`: every entry points at the
Symbol heap object carrying its name.  `Heap::new` establishes it and
`intern_symbol_to_gcid` preserves it. -/
def SymTabOk (st : Interp) : Prop :=
  ∀ p ∈ st.symbols, st.objects[p.2]? = some (HeapObject.Symbol p.1)

instance symTabOkDecidable (st : Interp) : Decidable (SymTabOk st) :=
  List.decidableBAll _ _

theorem symTab_lookup {st : Interp} (h : SymTabOk st) {name : String} {id : GcId}
    (hl : alLookup name st.symbols = some id) :
    st.objects[id]? = some (HeapObject.Symbol name) :=
  h (name, id) (alLookup_mem name st.symbols id hl)

theorem symTab_lookup_lt {st : Interp} (h : SymTabOk st) {name : String} {id : GcId}
    (hl : alLookup name st.symbols = some id) : id < st.objects.length := by
  rcases List.getElem?_eq_some.mp (symTab_lookup h hl) with ⟨hlt, _⟩
  exact hlt

theorem intern_found {st : Interp} {name : String} {id : GcId}
    (h : alLookup name st.symbols = some id) : internSymbolToGcid st name = (id, st) := by
  simp [internSymbolToGcid, h]

theorem intern_fresh {st : Interp} {name : String}
    (h : alLookup name st.symbols = none) :
    internSymbolToGcid st name =
      (st.objects.length,
       { st with objects := st.objects ++ [HeapObject.Symbol name],
                 symbols := alInsert name st.objects.length st.symbols }) := by
  simp [internSymbolToGcid, h]

/-- C7: on any state whose interning table satisfies `SymTabOk` (as the
startup state does), `intern_symbol_to_gcid` is idempotent — re-interning
a name returns the same id and the same state — and injective — two
interned names receive the same id exactly when the names are equal. -/
theorem intern_spec (st : Interp) (h : SymTabOk st) (s1 s2 : String) :
    internSymbolToGcid (internSymbolToGcid st s1).2 s1 = internSymbolToGcid st s1 ∧
    ((internSymbolToGcid (internSymbolToGcid st s1).2 s2).1 = (internSymbolToGcid st s1).1 ↔
      s1 = s2) := by
  cases h1 : alLookup s1 st.symbols with
  | some id1 =>
      rw [intern_found h1]
      refine ⟨by simpa using intern_found h1, ?_⟩
      constructor
      · intro hid
        cases h2 : alLookup s2 st.symbols with
        | some id2 =>
            rw [intern_found h2] at hid
            simp at hid
            have o1 := symTab_lookup h h1
            have o2 := symTab_lookup h h2
            rw [hid, o1] at o2
            exact HeapObject.Symbol.inj (Option.some.inj o2)
        | none =>
            rw [intern_fresh h2] at hid
            simp at hid
            have hlt := symTab_lookup_lt h h1
            exact absurd hid (Nat.ne_of_gt hlt)
      · intro hs
        subst hs
        rw [intern_found h1]
  | none =>
      rw [intern_fresh h1]
      have hl1 : alLookup s1 (alInsert s1 st.objects.length st.symbols) =
          some st.objects.length := alLookup_alInsert_self _ _ _
      refine ⟨by simpa using intern_found hl1, ?_⟩
      constructor
      · intro hid
        by_contra hne
        have hl2 : alLookup s2 (alInsert s1 st.objects.length st.symbols) =
            alLookup s2 st.symbols :=
          alLookup_alInsert_ne s1 s2 st.objects.length st.symbols (fun hh => hne hh.symm)
        cases h2 : alLookup s2 st.symbols with
        | some id2 =>
            rw [intern_found (hl2.trans h2)] at hid
            simp at hid
            have hlt := symTab_lookup_lt h h2
            exact absurd hid (Nat.ne_of_lt hlt)
        | none =>
            rw [intern_fresh (hl2.trans h2)] at hid
            simp at hid
      · intro hs
        subst hs
        rw [intern_found hl1]

theorem intern_spec_witness :
    internSymbolToGcid (internSymbolToGcid initInterp "foo").2 "foo" =
      internSymbolToGcid initInterp "foo" ∧
    ((internSymbolToGcid (internSymbolToGcid initInterp "foo").2 "bar").1 =
        (internSymbolToGcid initInterp "foo").1 ↔ ("foo" : String) = "bar") :=
  intern_spec initInterp (by decide) "foo" "bar"

/-- C3 (amended): the `if` form evaluates its condition first and then
requires a boolean: a condition value `Boolean true` dispatches the then
branch, `Boolean false` the else branch, and every other value — Nil and
0 included — makes `if` itself fail with a TypeError. -/
theorem if_dispatch_amended (fuel : Nat) (st st1 : Interp) (env : EnvId)
    (c t e v : Value)
    (h : evalV fuel st env c = (PRes.ok v, st1)) :
    kwEval (fuel + 1) st env Keyword.If [c, t, e] =
      match v with
      | Value.Boolean true => evalV fuel st1 env t
      | Value.Boolean false => evalV fuel st1 env e
      | _ =>
          (PRes.err (SchemeError.TypeError "if condition must evaluate to a boolean"), st1) := by
  rw [kwEval]
  simp only [h]
  cases v with
  | Boolean b => cases b <;> rfl
  | Number n => rfl
  | Object id => rfl
  | Nil => rfl

theorem if_dispatch_amended_witness :
    kwEval 2 initInterp globalEnvId Keyword.If
        [Value.Number (Number.Int 0), Value.Number (Number.Int 1),
         Value.Number (Number.Int 2)] =
      (PRes.err (SchemeError.TypeError "if condition must evaluate to a boolean"),
       initInterp) := by
  have h := if_dispatch_amended 1 initInterp initInterp globalEnvId
    (Value.Number (Number.Int 0)) (Value.Number (Number.Int 1))
    (Value.Number (Number.Int 2)) (Value.Number (Number.Int 0)) rfl
  simpa using h

/-- Observation: is the value a Float-tagged number? -/
def isFloatValue : Value → Bool
  | Value.Number (Number.Float _) => true
  | _ => false

theorem foldl_div_isFloat (l : List Number) (x : Number) (h : l ≠ []) :
    isFloatValue (Value.Number (l.foldl Number.div x)) = true := by
  induction l generalizing x with
  | nil => exact absurd rfl h
  | cons y t ih =>
      cases t with
      | nil => cases x <;> cases y <;> simp [Number.div, isFloatValue]
      | cons z t2 => exact ih (Number.div x y) (by simp)

theorem allNumbers_map (l : List Number) : allNumbers (l.map Value.Number) = Except.ok l := by
  induction l with
  | nil => rfl
  | cons x t ih => simp [allNumbers, ih]

/-- C9: the division primitive always returns a Float when it returns at
all: every successful result is Float-tagged, a single numeric argument x
yields `1 / x` as a Float, `Number`'s division promotes every operand pair
(Int/Int included) to a Float carrying the rational quotient, two or more
arguments fold left with that division, and `(/ 4 2)` yields the Float
2.0. -/
theorem primitive_div_spec :
    (∀ (st st2 : Interp) (args : List Value) (v : Value),
       primitive_div st args = (PRes.ok v, st2) → isFloatValue v = true) ∧
    (∀ (st : Interp) (x : Number),
       primitive_div st [Value.Number x] =
         (PRes.ok (Value.Number (Number.Float (1 / x.toRat))), st)) ∧
    (∀ (a b : Number), Number.div a b = Number.Float (a.toRat / b.toRat)) ∧
    (∀ (st : Interp) (x y : Number) (rest : List Number),
       primitive_div st (Value.Number x :: Value.Number y :: rest.map Value.Number) =
         (PRes.ok (Value.Number ((y :: rest).foldl Number.div x)), st)) ∧
    (∀ st : Interp,
       primitive_div st [Value.Number (Number.Int 4), Value.Number (Number.Int 2)] =
         (PRes.ok (Value.Number (Number.Float 2)), st)) := by
  have hdiv : ∀ (a b : Number), Number.div a b = Number.Float (a.toRat / b.toRat) := by
    intro a b
    cases a <;> cases b <;> simp [Number.div, Number.toRat]
  refine ⟨?_, ?_, hdiv, ?_, ?_⟩
  · intro st st2 args v h
    rw [primitive_div] at h
    cases han : allNumbers args with
    | error e => rw [han] at h; exact PRes.noConfusion (congrArg Prod.fst h)
    | ok nums =>
        rw [han] at h
        match nums with
        | [] => exact PRes.noConfusion (congrArg Prod.fst h)
        | [x] =>
            have hv := congrArg Prod.fst h
            simp at hv
            rw [← hv]
            simp [hdiv, isFloatValue]
        | x :: y :: t =>
            have hv := congrArg Prod.fst h
            simp at hv
            rw [← hv]
            exact foldl_div_isFloat (y :: t) x (by simp)
  · intro st x
    simp [primitive_div, allNumbers, hdiv, Number.toRat]
  · intro st x y rest
    have hmap : Value.Number x :: Value.Number y :: rest.map Value.Number =
        (x :: y :: rest).map Value.Number := by simp
    rw [hmap, primitive_div, allNumbers_map]
  · intro st
    simp [primitive_div, allNumbers, Number.div]
    norm_num

theorem primitive_div_spec_witness : isFloatValue (Value.Number (Number.Float 2)) = true :=
  primitive_div_spec.1 initInterp initInterp
    [Value.Number (Number.Int 4), Value.Number (Number.Int 2)]
    (Value.Number (Number.Float 2)) (primitive_div_spec.2.2.2.2 initInterp)

/-- C10: the remainder primitive applied to two Integers computes the
host's truncated remainder `a % b` directly; no branch returns a
SchemeError for a zero Integer divisor — that case is the host's
division-by-zero panic (`PRes.abort`), so the embedded remainder is total
only under the precondition that the Integer divisor is nonzero. -/
theorem primitive_rem_spec :
    (∀ (st : Interp) (a b : ℤ), b ≠ 0 →
       primitive_rem st [Value.Number (Number.Int a), Value.Number (Number.Int b)] =
         (PRes.ok (Value.Number (Number.Int (Int.tmod a b))), st)) ∧
    (∀ (st : Interp) (a : ℤ),
       primitive_rem st [Value.Number (Number.Int a), Value.Number (Number.Int 0)] =
         (PRes.abort, st)) := by
  constructor
  · intro st a b hb
    simp [primitive_rem, Number.remP, hb]
  · intro st a
    simp [primitive_rem, Number.remP]

theorem primitive_rem_spec_witness :
    primitive_rem initInterp [Value.Number (Number.Int 10), Value.Number (Number.Int 3)] =
      (PRes.ok (Value.Number (Number.Int 1)), initInterp) :=
  (primitive_rem_spec.1 initInterp 10 3 (by decide)).trans (by decide)
